import Mathlib

/-!
Verification of the attendance-system core of this repository
(src/server.js and the file-backed variant src/unnamed/part_000; the two
files implement the same AttendanceSystem class, so one embedding covers
both).

Modelling conventions, fixed once for the whole development:

* JavaScript objects are string-keyed, insertion-ordered maps with unique
  keys; they are embedded as association lists (List (String × _)) where
  List.lookup finds the (unique) binding, setKey overwrites a binding in
  place or appends a fresh one at the end (JS property assignment), and
  eraseKey removes it (JS delete).
* JS Date is embedded as a timezone-naive proleptic Gregorian calendar
  (per the spec's design note that one calendar convention must be picked):
  new Date(year, month-1, d) is the triple (year, month, d); getDay() is
  dayOfWeek (0=Sunday..6=Saturday, via the rata-die count anchored at
  0001-01-01 = Monday); toISOString().split('T')[0] is toISODate.
  The source re-parses the emitted date string with new Date(dateStr) to
  ask for its weekday; for strings produced by toISODate this is again
  dayOfWeek of the generating triple, which is how it is modelled.
* Year is an Int (JS numbers; January-of-year rollback can reach year-1),
  month and day are Nat.
* A stored attendance value is an Option Int: some n is the JS number n,
  none models NaN (parseInt of a digit-free string). updateAttendance
  stores parseInt(status) verbatim, whatever it is.
* saveData/backup calls only touch the filesystem and never change the
  in-memory store; they are not part of the state model.
-/

/-! ## Calendar (getMonthDates and the weekday checks, server.js 314-327) -/

/-- Gregorian leap-year rule. -/
def isLeap (y : Int) : Bool := y % 4 == 0 && (y % 100 != 0 || y % 400 == 0)

/-- Number of days in a month (the number of iterations of the
getMonthDates loop before getMonth() leaves the month). -/
def daysInMonth (y : Int) (m : Nat) : Nat :=
  if m = 2 then (if isLeap y then 29 else 28)
  else if m = 4 ∨ m = 6 ∨ m = 9 ∨ m = 11 then 30 else 31

/-- Days in months 1..m-1 of year y. -/
def daysBeforeMonth (y : Int) (m : Nat) : Nat :=
  ((List.range' 1 (m - 1)).map (daysInMonth y)).sum

/-- Rata-die day number of (y, m, d): day 1 is 0001-01-01 in the proleptic
Gregorian calendar. -/
def rataDie (y : Int) (m d : Nat) : Int :=
  365 * (y - 1) + (y - 1).fdiv 4 - (y - 1).fdiv 100 + (y - 1).fdiv 400 +
    (daysBeforeMonth y m : Int) + (d : Int)

/-- JS Date.prototype.getDay convention: 0=Sunday .. 6=Saturday
(0001-01-01 is a Monday, and rataDie 1 1 1 = 1). -/
def dayOfWeek (y : Int) (m d : Nat) : Int := (rataDie y m d).emod 7

/-- Two-digit zero padding used by toISOString for month and day. -/
def pad2 (n : Nat) : String := if n < 10 then "0" ++ toString n else toString n

/-- Four-digit zero padding used by toISOString for years 0..9999. -/
def pad4 (n : Nat) : String :=
  if n < 10 then "000" ++ toString n
  else if n < 100 then "00" ++ toString n
  else if n < 1000 then "0" ++ toString n
  else toString n

/-- The year part of toISOString output (years outside 0..9999 keep their
plain decimal form; only the common prefix of one month's dates matters
for the properties proved below). -/
def yearStr (y : Int) : String :=
  if 0 ≤ y ∧ y < 10000 then pad4 y.toNat else toString y

/-- The fixed "YYYY-MM-" stem shared by all dates of one month. -/
def monthStem (y : Int) (m : Nat) : String := yearStr y ++ "-" ++ pad2 m ++ "-"

/-- date.toISOString().split('T')[0] for the local date (y, m, d). -/
def toISODate (y : Int) (m d : Nat) : String := monthStem y m ++ pad2 d

/-- The weekday filter of getMonthDates: Monday, Wednesday or Thursday. -/
def isMeetingWeekday (w : Int) : Bool := w == 1 || w == 3 || w == 4

/-- Day numbers kept by the getMonthDates loop, in loop order. -/
def meetingDays (y : Int) (m : Nat) : List Nat :=
  (List.range' 1 (daysInMonth y m)).filter (fun d => isMeetingWeekday (dayOfWeek y m d))

/-- getMonthDates (server.js 314-327): iterate the days of the month in
ascending order, keep Mondays/Wednesdays/Thursdays, emit as YYYY-MM-DD. -/
def getMonthDates (y : Int) (m : Nat) : List String :=
  (meetingDays y m).map (fun d => toISODate y m d)

/-! ## Data model (the JSON document held in this.data) -/

/-- One member's record inside a month: role string, attendance map from
date string to stored number (none models NaN), display order. -/
structure MemberRecord where
  role : String
  attendance : List (String × Option Int)
  order : Int
deriving DecidableEq

/-- A month's roster: member name to record, in insertion order. -/
abbrev Roster := List (String × MemberRecord)

/-- The whole store: month key "YYYY-MM" to roster, in insertion order. -/
abbrev Store := List (String × Roster)

/-- Overwrite the binding of k in place, or append it (JS property
assignment on an object). -/
def setKey {α : Type} : List (String × α) → String → α → List (String × α)
  | [], k, v => [(k, v)]
  | (k', v') :: rest, k, v =>
    if k' = k then (k, v) :: rest else (k', v') :: setKey rest k v

/-- Remove the binding of k (JS delete). -/
def eraseKey {α : Type} : List (String × α) → String → List (String × α)
  | [], _ => []
  | (k', v') :: rest, k =>
    if k' = k then eraseKey rest k else (k', v') :: eraseKey rest k

/-! ## Store operations (AttendanceSystem methods) -/

/-- getMonthKey (server.js 204-206): year + '-' + zero-padded month. -/
def getMonthKey (y : Int) (m : Nat) : String :=
  toString y ++ "-" ++ (if m < 10 then "0" ++ toString m else toString m)

/-- initializeMonth (server.js 208-214): create an empty roster if the
month key is absent. -/
def initializeMonth (st : Store) (y : Int) (m : Nat) : Store :=
  if (st.lookup (getMonthKey y m)).isSome then st
  else st ++ [(getMonthKey y m, [])]

/-- getMonthMembers (server.js 309-312): this.data[monthKey] || {}. -/
def getMonthMembers (st : Store) (y : Int) (m : Nat) : Roster :=
  (st.lookup (getMonthKey y m)).getD []

/-- addMember (server.js 216-230): ensure the month, refuse a duplicate
name, otherwise append a record with empty attendance and
order = current roster size. -/
def addMember (st : Store) (y : Int) (m : Nat) (name role : String) : Bool × Store :=
  let key := getMonthKey y m
  let st1 := initializeMonth st y m
  let roster := (st1.lookup key).getD []
  match roster.lookup name with
  | some _ => (false, st1)
  | none =>
      (true, setKey st1 key
        (roster ++ [(name, { role := role, attendance := [], order := (roster.length : Int) })]))

/-- deleteMember (server.js 232-240). -/
def deleteMember (st : Store) (y : Int) (m : Nat) (name : String) : Bool × Store :=
  let key := getMonthKey y m
  match st.lookup key with
  | none => (false, st)
  | some roster =>
    match roster.lookup name with
    | none => (false, st)
    | some _ => (true, setKey st key (eraseKey roster name))

/-- updateMemberRole (server.js 242-250). -/
def updateMemberRole (st : Store) (y : Int) (m : Nat) (name newRole : String) : Bool × Store :=
  let key := getMonthKey y m
  match st.lookup key with
  | none => (false, st)
  | some roster =>
    match roster.lookup name with
    | none => (false, st)
    | some rec => (true, setKey st key (setKey roster name { rec with role := newRole }))

/-- updateMemberOrder (server.js 252-265): apply each {name, order} pair
whose name exists, silently skip the rest. -/
def updateMemberOrder (st : Store) (y : Int) (m : Nat)
    (memberOrders : List (String × Int)) : Bool × Store :=
  let key := getMonthKey y m
  match st.lookup key with
  | none => (false, st)
  | some roster =>
    let roster' := memberOrders.foldl (fun r p =>
      match r.lookup p.1 with
      | some rec => setKey r p.1 { rec with order := p.2 }
      | none => r) roster
    (true, setKey st key roster')

/-- The previous-month computation of copyFromPreviousMonth
(server.js 269-275): prevMonth = month - 1, and if that is 0 roll back to
December of the previous year.  (For the calendar months 1..12 the Nat
subtraction m - 1 = 0 test coincides with the JS prevMonth === 0 test.) -/
def prevYearMonth (y : Int) (m : Nat) : Int × Nat :=
  if m - 1 = 0 then (y - 1, 12) else (y, m - 1)

/-- copyFromPreviousMonth (server.js 267-297): fail if the previous month
has no roster, otherwise replace the current month's roster with one entry
per previous-month member keeping role and order and resetting attendance.
(The source overwrites the current key before reading the previous roster;
the two keys are distinct strings for calendar months, so reading first is
the same.) -/
def copyFromPreviousMonth (st : Store) (y : Int) (m : Nat) : Bool × Store :=
  let currentMonthKey := getMonthKey y m
  let prev := prevYearMonth y m
  let prevMonthKey := getMonthKey prev.1 prev.2
  match st.lookup prevMonthKey with
  | none => (false, st)
  | some prevRoster =>
      (true, setKey st currentMonthKey
        (prevRoster.map (fun p =>
          (p.1, { role := p.2.role, attendance := [], order := p.2.order }))))

/-- A JSON value arriving as the status field of the attendance request:
a number or a string. -/
inductive JSVal where
  | num (n : Int)
  | str (s : String)
deriving DecidableEq

/-- Numeric value of a decimal or hexadecimal digit character
(0-9, a-f, A-F). -/
def hexDigitVal (c : Char) : Nat :=
  if c.isDigit then c.toNat - 48
  else if 'a' ≤ c && c ≤ 'f' then c.toNat - 87
  else c.toNat - 55

/-- Value of a digit string in the given radix. -/
def digitsVal (radix : Nat) (ds : List Char) : Nat :=
  ds.foldl (fun a c => a * radix + hexDigitVal c) 0

/-- JS parseInt on a string (ECMA-262 with the radix argument omitted):
skip leading whitespace, one optional sign, then auto-detect a 0x/0X
prefix as radix 16 and otherwise use radix 10, and take the value of the
longest digit prefix in that radix; no digits gives NaN = none. -/
def parseIntStr (s : String) : Option Int :=
  let cs := s.data.dropWhile (fun c => c == ' ' || c == '\t' || c == '\n' || c == '\r')
  let signAndRest : Int × List Char :=
    match cs with
    | '-' :: r => (-1, r)
    | '+' :: r => (1, r)
    | _ => (1, cs)
  let hexTail : Option (List Char) :=
    match signAndRest.2 with
    | '0' :: c :: r => if c == 'x' || c == 'X' then some r else none
    | _ => none
  match hexTail with
  | some r =>
    let ds := r.takeWhile (fun c =>
      c.isDigit || ('a' ≤ c && c ≤ 'f') || ('A' ≤ c && c ≤ 'F'))
    if ds.isEmpty then none
    else some (signAndRest.1 * ((digitsVal 16 ds : Nat) : Int))
  | none =>
    let ds := signAndRest.2.takeWhile (fun c => c.isDigit)
    if ds.isEmpty then none
    else some (signAndRest.1 * ((digitsVal 10 ds : Nat) : Int))

/-- JS parseInt as applied to the status value (a number is stringified
and reparsed, which on integers is the identity). -/
def parseIntJS : JSVal → Option Int
  | .num n => some n
  | .str s => parseIntStr s

/-- updateAttendance (server.js 299-307): store parseInt(status) under the
date key of the member's attendance map. -/
def updateAttendance (st : Store) (y : Int) (m : Nat) (name date : String)
    (status : JSVal) : Bool × Store :=
  let key := getMonthKey y m
  match st.lookup key with
  | none => (false, st)
  | some roster =>
    match roster.lookup name with
    | none => (false, st)
    | some rec =>
      (true, setKey st key
        (setKey roster name
          { rec with attendance := setKey rec.attendance date (parseIntJS status) }))

/-! ## Statistics (calculateMonthlyStats, server.js 329-377) -/

/-- The stats record returned by calculateMonthlyStats.  The two
required_* fields are Options because the absent-member early return
(server.js 334) builds an object without them. -/
structure Stats where
  total : Nat
  wednesday : Nat
  meets_requirement : Bool
  required_total : Option Nat
  required_wednesday : Option Nat
deriving DecidableEq

/-- ROLE_REQUIREMENTS (server.js 15-20) together with the || fallback of
line 358: unknown roles give (0, 0). -/
def roleRequirements (role : String) : Nat × Nat :=
  if role = "운영진" then (0, 0)
  else if role = "페이서" then (3, 0)
  else if role = "페이서 강남" then (3, 2)
  else if role = "포토" then (1, 0)
  else (0, 0)

/-- The counting loop of calculateMonthlyStats (server.js 346-356) over
the month's meeting days: total counts the dates whose stored attendance
is exactly the number 1, wednesday additionally requires the re-parsed
date's weekday to be 3. -/
def countAttendance (att : List (String × Option Int)) (y : Int) (m : Nat)
    (days : List Nat) : Nat × Nat :=
  days.foldl (fun p d =>
    if att.lookup (toISODate y m d) = some (some 1) then
      (p.1 + 1, if dayOfWeek y m d = 3 then p.2 + 1 else p.2)
    else p) (0, 0)

/-- calculateMonthlyStats (server.js 329-377). -/
def calculateMonthlyStats (st : Store) (y : Int) (m : Nat) (name : String) : Stats :=
  let members := (st.lookup (getMonthKey y m)).getD []
  match members.lookup name with
  | none =>
      { total := 0, wednesday := 0, meets_requirement := false,
        required_total := none, required_wednesday := none }
  | some member =>
      let counts := countAttendance member.attendance y m (meetingDays y m)
      let req := roleRequirements member.role
      let meets : Bool :=
        if member.role = "운영진" then true
        else !(decide (counts.1 < req.1)) && !(decide (counts.2 < req.2))
      { total := counts.1, wednesday := counts.2, meets_requirement := meets,
        required_total := some req.1, required_wednesday := some req.2 }

/-! ## Export and import (server.js 380-464) -/

/-- One member entry of the month export report (server.js 444-449). -/
structure ExportMember where
  role : String
  order : Int
  stats : Stats
  attendance : List (String × Int)
deriving DecidableEq

/-- The month export payload (exportDate and the echoed year/month are
clock/input noise and not modelled). -/
structure ExportResult where
  members : List (String × ExportMember)
  dates : List String
deriving DecidableEq

/-- Stable insertion of one entry in front of the first entry with a
strictly larger order value. -/
def insertByOrder (x : String × MemberRecord) : Roster → Roster
  | [] => [x]
  | y :: ys => if x.2.order ≤ y.2.order then x :: y :: ys else y :: insertByOrder x ys

/-- The stable sort by (memberInfo.order || 0) of the report entries
(server.js 433-437); on integers x || 0 is x, and JS Array.prototype.sort
is stable, which insertion sort realizes. -/
def sortByOrder : Roster → Roster
  | [] => []
  | x :: xs => insertByOrder x (sortByOrder xs)

/-- The JS expression (memberInfo.attendance[dateStr] || 0): a missing
entry, a stored NaN and a stored 0 all give 0. -/
def attOrZero (v : Option (Option Int)) : Int :=
  match v with
  | some (some n) => n
  | _ => 0

/-- exportMonthData (server.js 426-464): sort the roster stably by order,
then for each member emit role, order, the member's monthly stats, and an
attendance map over exactly the month's meeting dates with missing/falsy
entries replaced by 0. -/
def exportMonthData (st : Store) (y : Int) (m : Nat) : ExportResult :=
  let members := getMonthMembers st y m
  let dates := getMonthDates y m
  let sorted := sortByOrder members
  { members := sorted.map (fun p =>
      (p.1, { role := p.2.role, order := p.2.order,
              stats := calculateMonthlyStats st y m p.1,
              attendance := dates.map (fun ds => (ds, attOrZero (p.2.attendance.lookup ds))) })),
    dates := dates }

/-- One member entry of an import payload; every field may be absent
(none models a missing/undefined JSON field). -/
structure PayloadMember where
  role : Option String
  attendance : Option (List (String × Option Int))
  order : Option Int
deriving DecidableEq

/-- An import payload: the members object may itself be absent. -/
structure MonthPayload where
  members : Option (List (String × PayloadMember))
deriving DecidableEq

/-- The JS default (memberData.role || '미정'): both a missing role and
the (falsy) empty string fall back to the default. -/
def jsStrOr (v : Option String) (dflt : String) : String :=
  match v with
  | some s => if s = "" then dflt else s
  | none => dflt

/-- importMonthData (server.js 380-414): delete the month key, re-add it
(the key moves to the end of the store), and rebuild the roster from the
payload entry by entry, defaulting role to '미정', attendance to {} and
order to the entry's position. -/
def importMonthData (st : Store) (y : Int) (m : Nat) (payload : MonthPayload) : Store :=
  let key := getMonthKey y m
  let base := eraseKey st key
  let roster : Roster :=
    match payload.members with
    | none => []
    | some ms => ms.enum.map (fun ip =>
        (ip.2.1, { role := jsStrOr ip.2.2.role "미정",
                   attendance := ip.2.2.attendance.getD [],
                   order := ip.2.2.order.getD (ip.1 : Int) }))
  base ++ [(key, roster)]

/-- Re-reading a month export as an import payload (the stats field is
ignored by importMonthData and dropped; the numeric attendance values
become JSON numbers). -/
def toMonthPayload (e : ExportResult) : MonthPayload :=
  { members := some (e.members.map (fun p =>
      (p.1, { role := some p.2.role,
              attendance := some (p.2.attendance.map (fun q => (q.1, some q.2))),
              order := some p.2.order }))) }

/-! ## The 0/1 attendance invariant and state-passing readers -/

/-- A stored attendance value is exactly the number 0 or the number 1. -/
def attValOK (v : Option Int) : Bool := v == some 0 || v == some 1

/-- Every value of one attendance map is 0 or 1. -/
def attMapOK (att : List (String × Option Int)) : Bool :=
  att.all (fun a => attValOK a.2)

/-- Every attendance value of every member of one roster is 0 or 1. -/
def rosterAttOK (r : Roster) : Bool :=
  r.all (fun me => attMapOK me.2.attendance)

/-- Every attendance value of every member of every month is 0 or 1. -/
def attOK (st : Store) : Bool :=
  st.all (fun mo => rosterAttOK mo.2)

/-- Every attendance value carried by an import payload is 0 or 1. -/
def payloadAttOK (p : MonthPayload) : Bool :=
  match p.members with
  | none => true
  | some ms => ms.all (fun q => attMapOK (q.2.attendance.getD []))

/-- getMonthMembers in state-passing form: the method body contains no
assignment to this.data, so the outgoing store is the incoming one. -/
def getMonthMembersS (st : Store) (y : Int) (m : Nat) : Roster × Store :=
  (getMonthMembers st y m, st)

/-- getMonthDates in state-passing form: the method never reads or writes
this.data. -/
def getMonthDatesS (st : Store) (y : Int) (m : Nat) : List String × Store :=
  (getMonthDates y m, st)

/-- calculateMonthlyStats in state-passing form: the method only reads
this.data. -/
def calculateMonthlyStatsS (st : Store) (y : Int) (m : Nat) (name : String) : Stats × Store :=
  (calculateMonthlyStats st y m name, st)

/-! ## Association-list lemmas -/

theorem lookup_cons_eq {α : Type} (k : String) (v : α) (rest : List (String × α)) :
    List.lookup k ((k, v) :: rest) = some v := by
  simp [List.lookup]

theorem lookup_cons_ne {α : Type} {k k' : String} (v : α) (rest : List (String × α))
    (h : k ≠ k') : List.lookup k ((k', v) :: rest) = List.lookup k rest := by
  have hb : (k == k') = false := by simp [h]
  simp [List.lookup, hb]

theorem setKey_cons_eq {α : Type} (k : String) (v v' : α) (rest : List (String × α)) :
    setKey ((k, v') :: rest) k v = (k, v) :: rest := by
  simp [setKey]

theorem setKey_cons_ne {α : Type} {k k' : String} (v v' : α) (rest : List (String × α))
    (h : k' ≠ k) : setKey ((k', v') :: rest) k v = (k', v') :: setKey rest k v := by
  simp [setKey, h]

theorem lookup_setKey_self {α : Type} (l : List (String × α)) (k : String) (v : α) :
    (setKey l k v).lookup k = some v := by
  induction l with
  | nil => simp [setKey, lookup_cons_eq]
  | cons p rest ih =>
    by_cases h : p.1 = k
    · simp [setKey, h, lookup_cons_eq]
    · rw [show p = (p.1, p.2) from rfl, setKey_cons_ne _ _ _ h,
        lookup_cons_ne _ _ (Ne.symm h)]
      exact ih

theorem lookup_setKey_ne {α : Type} (l : List (String × α)) (k k' : String) (v : α)
    (h : k' ≠ k) : (setKey l k v).lookup k' = l.lookup k' := by
  induction l with
  | nil => simp [setKey, lookup_cons_ne _ _ h]
  | cons p rest ih =>
    by_cases hp : p.1 = k
    · subst hp
      rw [show p = (p.1, p.2) from rfl, setKey_cons_eq,
        lookup_cons_ne _ _ h, lookup_cons_ne _ _ h]
    · rw [show p = (p.1, p.2) from rfl, setKey_cons_ne _ _ _ hp]
      by_cases hq : k' = p.1
      · subst hq
        rw [lookup_cons_eq, lookup_cons_eq]
      · rw [lookup_cons_ne _ _ hq, lookup_cons_ne _ _ hq]
        exact ih

theorem lookup_eraseKey_self {α : Type} (l : List (String × α)) (k : String) :
    (eraseKey l k).lookup k = none := by
  induction l with
  | nil => simp [eraseKey, List.lookup]
  | cons p rest ih =>
    by_cases h : p.1 = k
    · rw [show p = (p.1, p.2) from rfl]
      simpa [eraseKey, h] using ih
    · rw [show p = (p.1, p.2) from rfl, show eraseKey ((p.1, p.2) :: rest) k
          = (p.1, p.2) :: eraseKey rest k from by simp [eraseKey, h],
        lookup_cons_ne _ _ (Ne.symm h)]
      exact ih

theorem lookup_eraseKey_ne {α : Type} (l : List (String × α)) (k k' : String)
    (h : k' ≠ k) : (eraseKey l k).lookup k' = l.lookup k' := by
  induction l with
  | nil => simp [eraseKey]
  | cons p rest ih =>
    by_cases hp : p.1 = k
    · subst hp
      rw [show p = (p.1, p.2) from rfl, show eraseKey ((p.1, p.2) :: rest) p.1
          = eraseKey rest p.1 from by simp [eraseKey],
        lookup_cons_ne _ _ (fun hc => h (hc.trans rfl))]
      exact ih
    · rw [show p = (p.1, p.2) from rfl, show eraseKey ((p.1, p.2) :: rest) k
          = (p.1, p.2) :: eraseKey rest k from by simp [eraseKey, hp]]
      by_cases hq : k' = p.1
      · subst hq
        rw [lookup_cons_eq, lookup_cons_eq]
      · rw [lookup_cons_ne _ _ hq, lookup_cons_ne _ _ hq]
        exact ih

theorem lookup_append_of_none {α : Type} (l₁ l₂ : List (String × α)) (k : String)
    (h : l₁.lookup k = none) : (l₁ ++ l₂).lookup k = l₂.lookup k := by
  induction l₁ with
  | nil => simp
  | cons p rest ih =>
    by_cases hq : k = p.1
    · rw [show p = (p.1, p.2) from rfl, hq, lookup_cons_eq] at h
      cases h
    · rw [show p = (p.1, p.2) from rfl] at h ⊢
      rw [lookup_cons_ne _ _ hq] at h
      rw [List.cons_append, lookup_cons_ne _ _ hq]
      exact ih h

/-! ## Claims about addMember, copyFromPreviousMonth and the read operations -/

/-- C5: for a store, year, month, and a name not present in that month's
roster, addMember returns true and the resulting roster contains the new
member with the given role, an empty attendance map, and order equal to
the number of members in the roster immediately before insertion (an
absent month counting as an empty roster). -/
theorem addMember_new_member_spec (st : Store) (y : Int) (m : Nat) (name role : String)
    (h : (getMonthMembers st y m).lookup name = none) :
    (addMember st y m name role).1 = true ∧
    (getMonthMembers (addMember st y m name role).2 y m).lookup name =
      some { role := role, attendance := [],
             order := ((getMonthMembers st y m).length : Int) } := by
  unfold getMonthMembers at h ⊢
  unfold addMember initializeMonth
  cases hk : st.lookup (getMonthKey y m) with
  | none =>
    rw [hk] at h
    simp only [hk, Option.isSome_none, Bool.false_eq_true, if_false,
      lookup_append_of_none st _ _ hk, lookup_cons_eq, Option.getD_some,
      Option.getD_none]
    simp only [List.lookup, List.nil_append, lookup_setKey_self, Option.getD_some,
      lookup_cons_eq, Option.getD_none, List.length_nil]
    exact ⟨trivial, trivial⟩
  | some r =>
    rw [hk] at h
    simp only [Option.getD_some] at h
    simp only [hk, Option.isSome_some, if_true, Option.getD_some, h,
      lookup_setKey_self]
    rw [lookup_append_of_none _ _ _ h, lookup_cons_eq]
    exact ⟨trivial, rfl⟩

/-- C5 witness: adding a member to the empty store. -/
theorem addMember_new_member_spec_witness :
    (addMember [] 2025 1 "a" "페이서").1 = true ∧
    (getMonthMembers (addMember [] 2025 1 "a" "페이서").2 2025 1).lookup "a" =
      some { role := "페이서", attendance := [],
             order := ((getMonthMembers [] 2025 1).length : Int) } :=
  addMember_new_member_spec [] 2025 1 "a" "페이서" (by decide)

/-- C6: for a name already present in that month's roster, addMember
returns false and the entire store is unchanged. -/
theorem addMember_duplicate_spec (st : Store) (y : Int) (m : Nat) (name role : String)
    (rec : MemberRecord) (h : (getMonthMembers st y m).lookup name = some rec) :
    addMember st y m name role = (false, st) := by
  unfold getMonthMembers at h
  unfold addMember initializeMonth
  cases hk : st.lookup (getMonthKey y m) with
  | none =>
    rw [hk] at h
    simp [List.lookup] at h
  | some r =>
    rw [hk] at h
    simp only [Option.getD_some] at h
    simp [hk, h]

/-- C6 witness: re-adding an existing member of a one-member store. -/
theorem addMember_duplicate_spec_witness :
    addMember [("2025-01", [("a", { role := "페이서", attendance := [], order := 0 })])]
        2025 1 "a" "포토" =
      (false, [("2025-01", [("a", { role := "페이서", attendance := [], order := 0 })])]) :=
  addMember_duplicate_spec _ 2025 1 "a" "포토"
    { role := "페이서", attendance := [], order := 0 } (by decide)

/-- C4: copyFromPreviousMonth computes the previous calendar month with
December-of-previous-year rollback for January; if the previous month has
no roster it returns false and leaves the store untouched; otherwise it
returns true and replaces the current month's roster with one entry per
previous-month member keeping role and order and resetting attendance to
empty, leaving every other month key unchanged. -/
theorem copyFromPreviousMonth_spec (st : Store) (y : Int) (m : Nat) :
    prevYearMonth y 1 = (y - 1, 12) ∧
    (2 ≤ m → prevYearMonth y m = (y, m - 1)) ∧
    (st.lookup (getMonthKey (prevYearMonth y m).1 (prevYearMonth y m).2) = none →
      copyFromPreviousMonth st y m = (false, st)) ∧
    (∀ prevRoster,
      st.lookup (getMonthKey (prevYearMonth y m).1 (prevYearMonth y m).2) = some prevRoster →
      (copyFromPreviousMonth st y m).1 = true ∧
      getMonthMembers (copyFromPreviousMonth st y m).2 y m =
        prevRoster.map (fun p =>
          (p.1, { role := p.2.role, attendance := [], order := p.2.order })) ∧
      (∀ k, k ≠ getMonthKey y m →
        ((copyFromPreviousMonth st y m).2).lookup k = st.lookup k)) := by
  refine ⟨by simp [prevYearMonth], fun h2 => ?_, fun h => ?_, fun prevRoster hp => ?_⟩
  · unfold prevYearMonth
    rw [if_neg (by omega)]
  · simp [copyFromPreviousMonth, h]
  · simp only [copyFromPreviousMonth]
    rw [hp]
    exact ⟨rfl, by simp [getMonthMembers, lookup_setKey_self],
      fun k hk => by simpa using lookup_setKey_ne st (getMonthKey y m) k _ hk⟩

/-- C4 witness: January 2025 copies from December 2024, and a store that
lacks 2024-12 is left unchanged. -/
theorem copyFromPreviousMonth_spec_witness :
    prevYearMonth 2025 1 = (2024, 12) ∧
    copyFromPreviousMonth [] 2025 1 = (false, []) :=
  ⟨(copyFromPreviousMonth_spec [] 2025 1).1,
    (copyFromPreviousMonth_spec [] 2025 1).2.2.1 (by decide)⟩

/-- C10: the read operations getMonthMembers, getMonthDates and
calculateMonthlyStats (in state-passing form) return the store unchanged;
querying an absent month yields the empty roster and the zero-value stats
record, and does not create the month's entry. -/
theorem read_operations_pure_spec (st : Store) (y : Int) (m : Nat) (name : String) :
    (getMonthMembersS st y m).2 = st ∧
    (getMonthDatesS st y m).2 = st ∧
    (calculateMonthlyStatsS st y m name).2 = st ∧
    (st.lookup (getMonthKey y m) = none →
      (getMonthMembersS st y m).1 = [] ∧
      (calculateMonthlyStatsS st y m name).1 =
        { total := 0, wednesday := 0, meets_requirement := false,
          required_total := none, required_wednesday := none } ∧
      ((getMonthMembersS st y m).2).lookup (getMonthKey y m) = none) := by
  refine ⟨rfl, rfl, rfl, fun h => ⟨?_, ?_, h⟩⟩
  · simp [getMonthMembersS, getMonthMembers, h]
  · simp [calculateMonthlyStatsS, calculateMonthlyStats, h, List.lookup]

/-- C10 witness: reading month 2025-01 of the empty store. -/
theorem read_operations_pure_spec_witness :
    (calculateMonthlyStatsS [] 2025 1 "a").2 = [] ∧
    (calculateMonthlyStatsS [] 2025 1 "a").1 =
      { total := 0, wednesday := 0, meets_requirement := false,
        required_total := none, required_wednesday := none } :=
  ⟨(read_operations_pure_spec [] 2025 1 "a").2.2.1,
    ((read_operations_pure_spec [] 2025 1 "a").2.2.2 (by decide)).2.1⟩

/-! ## Claims about calculateMonthlyStats -/

theorem countAttendance_le_aux (att : List (String × Option Int)) (y : Int) (m : Nat) :
    ∀ (days : List Nat) (p : Nat × Nat), p.2 ≤ p.1 →
      (days.foldl (fun p d =>
        if att.lookup (toISODate y m d) = some (some 1) then
          (p.1 + 1, if dayOfWeek y m d = 3 then p.2 + 1 else p.2)
        else p) p).2 ≤
      (days.foldl (fun p d =>
        if att.lookup (toISODate y m d) = some (some 1) then
          (p.1 + 1, if dayOfWeek y m d = 3 then p.2 + 1 else p.2)
        else p) p).1
  | [], _, h => h
  | d :: ds, p, h => by
    simp only [List.foldl_cons]
    apply countAttendance_le_aux att y m ds
    by_cases h1 : att.lookup (toISODate y m d) = some (some 1)
    · by_cases h2 : dayOfWeek y m d = 3 <;> simp [h1, h2] <;> omega
    · simpa [h1] using h

/-- C9: the wednesday count only increments on dates that also increment
the total count, so every stats record satisfies wednesday ≤ total. -/
theorem calculateMonthlyStats_wednesday_le_total (st : Store) (y : Int) (m : Nat)
    (name : String) :
    (calculateMonthlyStats st y m name).wednesday ≤
      (calculateMonthlyStats st y m name).total := by
  simp only [calculateMonthlyStats]
  cases h : ((st.lookup (getMonthKey y m)).getD []).lookup name with
  | none => simp
  | some member =>
    simp only [countAttendance]
    exact countAttendance_le_aux member.attendance y m (meetingDays y m) (0, 0) (le_refl 0)

/-- C2: for a member present in the month's roster, meets_requirement is
false exactly when the role is not the admin tier '운영진' and the member
is short of the role's total or wednesday requirement; the requirement
table is 운영진 (admin-tier) (0,0), 페이서 (pacer) (3,0), 페이서 강남
(pacer-gangnam) (3,2), 포토 (photo) (1,0), and every other role (0,0). -/
theorem calculateMonthlyStats_meets_requirement_spec (st : Store) (y : Int) (m : Nat)
    (name : String) (rec : MemberRecord)
    (h : (getMonthMembers st y m).lookup name = some rec) :
    ((calculateMonthlyStats st y m name).meets_requirement = false ↔
      (rec.role ≠ "운영진" ∧
        ((calculateMonthlyStats st y m name).total < (roleRequirements rec.role).1 ∨
          (calculateMonthlyStats st y m name).wednesday < (roleRequirements rec.role).2))) ∧
    roleRequirements "운영진" = (0, 0) ∧
    roleRequirements "페이서" = (3, 0) ∧
    roleRequirements "페이서 강남" = (3, 2) ∧
    roleRequirements "포토" = (1, 0) ∧
    (∀ r : String, r ≠ "운영진" → r ≠ "페이서" → r ≠ "페이서 강남" → r ≠ "포토" →
      roleRequirements r = (0, 0)) := by
  unfold getMonthMembers at h
  refine ⟨?_, rfl, by simp [roleRequirements], by simp [roleRequirements],
    by simp [roleRequirements], fun r h1 h2 h3 h4 => by simp [roleRequirements, h1, h2, h3, h4]⟩
  simp only [calculateMonthlyStats, h]
  by_cases hrole : rec.role = "운영진"
  · simp [hrole]
  · simp only [hrole, if_false]
    simp [hrole]
    omega

/-- C2 witness: a 페이서 member with no attendance misses the total
requirement of 3 and is marked as not meeting the requirement. -/
theorem calculateMonthlyStats_meets_requirement_spec_witness :
    (calculateMonthlyStats
      [("2025-01", [("a", { role := "페이서", attendance := [], order := 0 })])]
      2025 1 "a").meets_requirement = false := by
  have H := calculateMonthlyStats_meets_requirement_spec
    [("2025-01", [("a", { role := "페이서", attendance := [], order := 0 })])]
    2025 1 "a" { role := "페이서", attendance := [], order := 0 } (by decide)
  exact H.1.mpr ⟨by decide, Or.inl (by decide)⟩

/-- C7 counterexample: for an absent member the returned record does not
carry the required_total/required_wednesday fields (the early return of
server.js line 334 builds an object without them), contradicting the
claim that the record always carries them. -/
theorem calculateMonthlyStats_absent_omits_required_fields :
    (calculateMonthlyStats [] 2025 1 "a").required_total = none ∧
    (calculateMonthlyStats [] 2025 1 "a").required_wednesday = none ∧
    (calculateMonthlyStats [] 2025 1 "a").total = 0 ∧
    (calculateMonthlyStats [] 2025 1 "a").wednesday = 0 ∧
    (calculateMonthlyStats [] 2025 1 "a").meets_requirement = false := by
  refine ⟨rfl, rfl, rfl, rfl, rfl⟩

/-- C7 amended: for a member present in the roster the returned record
carries the resolved required_total and required_wednesday; for an absent
member the code returns total 0, wednesday 0, meets_requirement false
with both required fields absent. -/
theorem calculateMonthlyStats_required_fields_spec (st : Store) (y : Int) (m : Nat)
    (name : String) :
    (∀ rec, (getMonthMembers st y m).lookup name = some rec →
      (calculateMonthlyStats st y m name).required_total =
        some (roleRequirements rec.role).1 ∧
      (calculateMonthlyStats st y m name).required_wednesday =
        some (roleRequirements rec.role).2) ∧
    ((getMonthMembers st y m).lookup name = none →
      calculateMonthlyStats st y m name =
        { total := 0, wednesday := 0, meets_requirement := false,
          required_total := none, required_wednesday := none }) := by
  constructor
  · intro rec h
    unfold getMonthMembers at h
    simp [calculateMonthlyStats, h]
  · intro h
    unfold getMonthMembers at h
    simp [calculateMonthlyStats, h]

/-- C7 amended witness: the required fields of a present 포토 member. -/
theorem calculateMonthlyStats_required_fields_spec_witness :
    (calculateMonthlyStats
      [("2025-01", [("a", { role := "포토", attendance := [], order := 0 })])]
      2025 1 "a").required_total = some 1 :=
  ((calculateMonthlyStats_required_fields_spec
      [("2025-01", [("a", { role := "포토", attendance := [], order := 0 })])]
      2025 1 "a").1
    { role := "포토", attendance := [], order := 0 } (by decide)).1

/-! ## Preservation lemmas for the 0/1 attendance invariant -/

theorem all_map_pairs {α β : Type} (f : α → β) (p : β → Bool) :
    ∀ l : List α, (l.map f).all p = l.all (fun x => p (f x))
  | [] => rfl
  | a :: l => by simp only [List.map_cons, List.all_cons, all_map_pairs f p l]

theorem all_setKey {α : Type} (p : String × α → Bool) :
    ∀ (l : List (String × α)) (k : String) (v : α),
      l.all p = true → p (k, v) = true → (setKey l k v).all p = true
  | [], k, v, _, hv => by simp [setKey, hv]
  | (k', v') :: rest, k, v, hl, hv => by
    simp only [List.all_cons, Bool.and_eq_true] at hl
    by_cases h : k' = k
    · simp [setKey, h, hv, hl.2]
    · simp only [setKey, if_neg h, List.all_cons, Bool.and_eq_true]
      exact ⟨hl.1, all_setKey p rest k v hl.2 hv⟩

theorem all_eraseKey {α : Type} (p : String × α → Bool) :
    ∀ (l : List (String × α)) (k : String),
      l.all p = true → (eraseKey l k).all p = true
  | [], k, _ => by simp [eraseKey]
  | (k', v') :: rest, k, hl => by
    simp only [List.all_cons, Bool.and_eq_true] at hl
    by_cases h : k' = k
    · simpa [eraseKey, h] using all_eraseKey p rest k hl.2
    · simp only [eraseKey, if_neg h, List.all_cons, Bool.and_eq_true]
      exact ⟨hl.1, all_eraseKey p rest k hl.2⟩

theorem all_lookup {α : Type} (p : String × α → Bool) :
    ∀ (l : List (String × α)) (k : String) (v : α),
      l.all p = true → l.lookup k = some v → p (k, v) = true
  | [], k, v, _, hk => by simp [List.lookup] at hk
  | (k', v') :: rest, k, v, hl, hk => by
    simp only [List.all_cons, Bool.and_eq_true] at hl
    by_cases h : k = k'
    · subst h
      rw [lookup_cons_eq] at hk
      injection hk with hv
      exact hv ▸ hl.1
    · rw [lookup_cons_ne _ _ h] at hk
      exact all_lookup p rest k v hl.2 hk

theorem all_foldl_preserve {α β : Type} (f : β → α → β) (P : β → Bool)
    (hf : ∀ b a, P b = true → P (f b a) = true) :
    ∀ (l : List α) (b : β), P b = true → P (l.foldl f b) = true
  | [], _, h => h
  | a :: l, b, h => by
    simp only [List.foldl_cons]
    exact all_foldl_preserve f P hf l (f b a) (hf b a h)

theorem all_enumFrom {α : Type} (p : α → Bool) :
    ∀ (l : List α) (n : Nat),
      l.all p = true → (List.enumFrom n l).all (fun ip => p ip.2) = true
  | [], _, _ => by simp
  | a :: l, n, h => by
    simp only [List.all_cons, Bool.and_eq_true] at h
    simp only [List.enumFrom_cons, List.all_cons, Bool.and_eq_true]
    exact ⟨h.1, all_enumFrom p l (n + 1) h.2⟩

theorem rosterAttOK_lookup (r : Roster) (k : String) (rec : MemberRecord)
    (hr : rosterAttOK r = true) (hk : r.lookup k = some rec) :
    attMapOK rec.attendance = true :=
  all_lookup (fun me : String × MemberRecord => attMapOK me.2.attendance) r k rec hr hk

theorem attOK_lookup (st : Store) (k : String) (r : Roster)
    (hst : attOK st = true) (hk : st.lookup k = some r) :
    rosterAttOK r = true :=
  all_lookup (fun mo => rosterAttOK mo.2) st k r hst hk

theorem attOK_setKey (st : Store) (k : String) (r : Roster)
    (hst : attOK st = true) (hr : rosterAttOK r = true) :
    attOK (setKey st k r) = true :=
  all_setKey (fun mo => rosterAttOK mo.2) st k r hst hr

theorem rosterAttOK_setKey (r : Roster) (k : String) (rec : MemberRecord)
    (hr : rosterAttOK r = true) (hrec : attMapOK rec.attendance = true) :
    rosterAttOK (setKey r k rec) = true :=
  all_setKey (fun me : String × MemberRecord => attMapOK me.2.attendance) r k rec hr hrec

theorem parseIntStr_examples :
    parseIntStr "1" = some 1 ∧ parseIntStr "08" = some 8 ∧
    parseIntStr "0x2" = some 2 ∧ parseIntStr "0X5" = some 5 ∧
    parseIntStr "0x10" = some 16 ∧ parseIntStr "-0x2" = some (-2) ∧
    parseIntStr " 42abc" = some 42 ∧ parseIntStr "0x" = none ∧
    parseIntStr "abc" = none := by
  refine ⟨by decide, by decide, by decide, by decide, by decide, by decide,
    by decide, by decide, by decide⟩

/-- C8 counterexample: the claim says no input status can ever make a
store operation record a value other than 0 or 1, but updateAttendance
stores parseInt(status) verbatim: status 2 on a valid member is accepted
(returns true) and breaks the 0/1 invariant. -/
theorem updateAttendance_stores_arbitrary_integer :
    attOK [("2025-01", [("a", { role := "페이서", attendance := [], order := 0 })])] = true ∧
    (updateAttendance
      [("2025-01", [("a", { role := "페이서", attendance := [], order := 0 })])]
      2025 1 "a" "2025-01-06" (JSVal.num 2)).1 = true ∧
    attOK ((updateAttendance
      [("2025-01", [("a", { role := "페이서", attendance := [], order := 0 })])]
      2025 1 "a" "2025-01-06" (JSVal.num 2)).2) = false := by
  refine ⟨by decide, by decide, by decide⟩

/-- C8 amended: every store operation other than updateAttendance and
importMonthData preserves the 0/1 attendance invariant unconditionally;
updateAttendance stores the integer coercion of its status — the string
"1" is handled identically to the number 1 — and preserves the invariant
whenever that coercion is 0 or 1; importMonthData copies the payload's
attendance maps and preserves the invariant whenever every payload
attendance value is 0 or 1. -/
theorem attendance_invariant_spec (st : Store) (y : Int) (m : Nat)
    (name date roleArg : String) (status : JSVal) (orders : List (String × Int))
    (payload : MonthPayload) :
    (attOK st = true → (parseIntJS status = some 0 ∨ parseIntJS status = some 1) →
      attOK (updateAttendance st y m name date status).2 = true) ∧
    (updateAttendance st y m name date (JSVal.str "1") =
      updateAttendance st y m name date (JSVal.num 1)) ∧
    (attOK st = true → payloadAttOK payload = true →
      attOK (importMonthData st y m payload) = true) ∧
    (attOK st = true →
      attOK (initializeMonth st y m) = true ∧
      attOK (addMember st y m name roleArg).2 = true ∧
      attOK (deleteMember st y m name).2 = true ∧
      attOK (updateMemberRole st y m name roleArg).2 = true ∧
      attOK (updateMemberOrder st y m orders).2 = true ∧
      attOK (copyFromPreviousMonth st y m).2 = true) := by
  refine ⟨?_, ?_, ?_, ?_⟩
  · intro hst hv
    cases hk : st.lookup (getMonthKey y m) with
    | none => simpa only [updateAttendance, hk] using hst
    | some roster =>
      cases hn : roster.lookup name with
      | none => simpa only [updateAttendance, hk, hn] using hst
      | some rec =>
        simp only [updateAttendance, hk, hn]
        have hval : attValOK (parseIntJS status) = true := by
          rcases hv with h | h <;> simp [attValOK, h]
        have hroster := attOK_lookup st _ roster hst hk
        have hrec := rosterAttOK_lookup roster _ rec hroster hn
        refine attOK_setKey st _ _ hst (rosterAttOK_setKey roster _ _ hroster ?_)
        exact all_setKey (fun a : String × Option Int => attValOK a.2)
          rec.attendance date (parseIntJS status) hrec hval
  · have h1 : parseIntJS (JSVal.str "1") = some 1 := by decide
    have h2 : parseIntJS (JSVal.num 1) = some 1 := rfl
    simp only [updateAttendance, h1, h2]
  · intro hst hp
    cases hms : payload.members with
    | none =>
      simp only [importMonthData, hms]
      unfold attOK
      rw [List.all_append, Bool.and_eq_true]
      exact ⟨all_eraseKey _ st _ hst, by simp [rosterAttOK]⟩
    | some ms =>
      simp only [importMonthData, hms]
      unfold attOK
      rw [List.all_append, Bool.and_eq_true]
      refine ⟨all_eraseKey _ st _ hst, ?_⟩
      simp only [List.all_cons, List.all_nil, Bool.and_true]
      show rosterAttOK _ = true
      unfold rosterAttOK
      rw [all_map_pairs]
      unfold payloadAttOK at hp
      rw [hms] at hp
      exact all_enumFrom
        (fun q : String × PayloadMember => attMapOK (q.2.attendance.getD [])) ms 0 hp
  · intro hst
    have hinit : attOK (initializeMonth st y m) = true := by
      unfold initializeMonth
      split
      · exact hst
      · unfold attOK
        rw [List.all_append, Bool.and_eq_true]
        exact ⟨hst, by simp [rosterAttOK]⟩
    refine ⟨hinit, ?_, ?_, ?_, ?_, ?_⟩
    · cases hk : (initializeMonth st y m).lookup (getMonthKey y m) with
      | none =>
        simp only [addMember, hk, Option.getD_none, List.lookup]
        refine attOK_setKey _ _ _ hinit ?_
        simp [rosterAttOK, attMapOK]
      | some roster =>
        have hroster := attOK_lookup _ _ roster hinit hk
        cases hn : roster.lookup name with
        | some rec => simpa only [addMember, hk, Option.getD_some, hn] using hinit
        | none =>
          simp only [addMember, hk, Option.getD_some, hn]
          refine attOK_setKey _ _ _ hinit ?_
          unfold rosterAttOK
          rw [List.all_append, Bool.and_eq_true]
          exact ⟨hroster, by simp [attMapOK]⟩
    · cases hk : st.lookup (getMonthKey y m) with
      | none => simpa only [deleteMember, hk] using hst
      | some roster =>
        have hroster := attOK_lookup st _ roster hst hk
        cases hn : roster.lookup name with
        | none => simpa only [deleteMember, hk, hn] using hst
        | some rec =>
          simp only [deleteMember, hk, hn]
          exact attOK_setKey st _ _ hst (all_eraseKey _ roster name hroster)
    · cases hk : st.lookup (getMonthKey y m) with
      | none => simpa only [updateMemberRole, hk] using hst
      | some roster =>
        have hroster := attOK_lookup st _ roster hst hk
        cases hn : roster.lookup name with
        | none => simpa only [updateMemberRole, hk, hn] using hst
        | some rec =>
          simp only [updateMemberRole, hk, hn]
          exact attOK_setKey st _ _ hst
            (rosterAttOK_setKey roster name { rec with role := roleArg } hroster
              (rosterAttOK_lookup roster name rec hroster hn))
    · cases hk : st.lookup (getMonthKey y m) with
      | none => simpa only [updateMemberOrder, hk] using hst
      | some roster =>
        have hroster := attOK_lookup st _ roster hst hk
        simp only [updateMemberOrder, hk]
        refine attOK_setKey st _ _ hst ?_
        refine all_foldl_preserve _ rosterAttOK ?_ orders roster hroster
        intro r p hr
        cases hn : r.lookup p.1 with
        | none => simpa [hn] using hr
        | some rec =>
          simp only [hn]
          exact rosterAttOK_setKey r p.1 { rec with order := p.2 } hr
            (rosterAttOK_lookup r p.1 rec hr hn)
    · cases hk : st.lookup (getMonthKey (prevYearMonth y m).1 (prevYearMonth y m).2) with
      | none => simpa only [copyFromPreviousMonth, hk] using hst
      | some prevRoster =>
        simp only [copyFromPreviousMonth, hk]
        refine attOK_setKey st _ _ hst ?_
        unfold rosterAttOK
        rw [all_map_pairs]
        simp [attMapOK]

/-- C8 amended witness: storing the string "1" on a valid member keeps
the 0/1 invariant. -/
theorem attendance_invariant_spec_witness :
    attOK ((updateAttendance
      [("2025-01", [("a", { role := "페이서", attendance := [], order := 0 })])]
      2025 1 "a" "2025-01-06" (JSVal.str "1")).2) = true :=
  (attendance_invariant_spec
    [("2025-01", [("a", { role := "페이서", attendance := [], order := 0 })])]
    2025 1 "a" "2025-01-06" "x" (JSVal.str "1") [] { members := none }).1
    (by decide) (Or.inr (by decide))

/-! ## Claims about getMonthDates -/

theorem daysInMonth_le_31 (y : Int) (m : Nat) : daysInMonth y m ≤ 31 := by
  unfold daysInMonth
  split
  · split <;> omega
  · split <;> omega

theorem pad2_lex : ∀ b, b < 32 → ∀ a, a < b →
    List.Lex (fun c d : Char => c < d) (pad2 a).data (pad2 b).data := by decide

theorem pad2_inj : ∀ a, a < 32 → ∀ b, b < 32 → pad2 a = pad2 b → a = b := by decide

theorem lex_append_left (p : List Char) {a b : List Char}
    (h : List.Lex (fun c d : Char => c < d) a b) :
    List.Lex (fun c d : Char => c < d) (p ++ a) (p ++ b) := by
  induction p with
  | nil => exact h
  | cons c cs ih => exact List.Lex.cons ih

theorem toISODate_lt (y : Int) (m : Nat) {a b : Nat} (hab : a < b) (hb : b ≤ 31) :
    toISODate y m a < toISODate y m b := by
  rw [String.lt_iff_toList_lt]
  show List.Lex (fun c d : Char => c < d) (toISODate y m a).data (toISODate y m b).data
  unfold toISODate
  rw [String.data_append, String.data_append]
  exact lex_append_left _ (pad2_lex b (by omega) a hab)

theorem toISODate_inj (y : Int) (m : Nat) {a b : Nat} (ha : a ≤ 31) (hb : b ≤ 31)
    (h : toISODate y m a = toISODate y m b) : a = b := by
  unfold toISODate at h
  have hd := congrArg String.data h
  rw [String.data_append, String.data_append] at hd
  exact pad2_inj a (by omega) b (by omega) (String.ext (List.append_cancel_left hd))

theorem mem_meetingDays (y : Int) (m d : Nat) :
    d ∈ meetingDays y m ↔
      1 ≤ d ∧ d ≤ daysInMonth y m ∧ isMeetingWeekday (dayOfWeek y m d) = true := by
  unfold meetingDays
  rw [List.mem_filter, List.mem_range'_1]
  constructor
  · intro h
    exact ⟨h.1.1, by omega, h.2⟩
  · intro h
    exact ⟨⟨h.1, by omega⟩, h.2.2⟩

/-- C1: for every year and every calendar month, getMonthDates returns
date strings that are strictly ascending (lexicographically, which on the
fixed-width YYYY-MM-DD form is date order), contains the ISO string of a
day of the month exactly when that day's weekday is Monday, Wednesday or
Thursday (0=Sunday..6=Saturday), and contains nothing but such strings. -/
theorem getMonthDates_spec (y : Int) (m : Nat) (hm1 : 1 ≤ m) (hm2 : m ≤ 12) :
    List.Pairwise (fun a b : String => a < b) (getMonthDates y m) ∧
    (∀ d : Nat, 1 ≤ d → d ≤ daysInMonth y m →
      (toISODate y m d ∈ getMonthDates y m ↔ isMeetingWeekday (dayOfWeek y m d) = true)) ∧
    (∀ s, s ∈ getMonthDates y m → ∃ d : Nat, 1 ≤ d ∧ d ≤ daysInMonth y m ∧
      isMeetingWeekday (dayOfWeek y m d) = true ∧ s = toISODate y m d) := by
  have hd31 := daysInMonth_le_31 y m
  refine ⟨?_, ?_, ?_⟩
  · unfold getMonthDates
    rw [List.pairwise_map]
    have hp : List.Pairwise (fun a b : Nat => a < b) (meetingDays y m) :=
      (List.pairwise_lt_range' 1 (daysInMonth y m)).filter _
    refine List.Pairwise.imp_of_mem ?_ hp
    intro a b ha hb hab
    have hbm := (mem_meetingDays y m b).mp hb
    exact toISODate_lt y m hab (by omega)
  · intro d h1 h2
    constructor
    · intro hmem
      unfold getMonthDates at hmem
      rcases List.mem_map.mp hmem with ⟨d', hd', heq⟩
      have hm' := (mem_meetingDays y m d').mp hd'
      have hdd : d' = d := toISODate_inj y m (by omega) (by omega) heq
      exact hdd ▸ hm'.2.2
    · intro hw
      exact List.mem_map.mpr ⟨d, (mem_meetingDays y m d).mpr ⟨h1, h2, hw⟩, rfl⟩
  · intro s hs
    unfold getMonthDates at hs
    rcases List.mem_map.mp hs with ⟨d, hd, rfl⟩
    have h := (mem_meetingDays y m d).mp hd
    exact ⟨d, h.1, h.2.1, h.2.2, rfl⟩

/-- C1 witness: the meeting dates of January 2025 are strictly
ascending, and 2025-01-01 (a Wednesday) is among them. -/
theorem getMonthDates_spec_witness :
    List.Pairwise (fun a b : String => a < b) (getMonthDates 2025 1) ∧
    (toISODate 2025 1 1 ∈ getMonthDates 2025 1 ↔
      isMeetingWeekday (dayOfWeek 2025 1 1) = true) :=
  ⟨(getMonthDates_spec 2025 1 (by decide) (by decide)).1,
    (getMonthDates_spec 2025 1 (by decide) (by decide)).2.1 1 (by decide) (by decide)⟩

/-! ## Claims about export followed by import -/

theorem insertByOrder_perm (x : String × MemberRecord) :
    ∀ l : Roster, (insertByOrder x l).Perm (x :: l)
  | [] => List.Perm.refl _
  | y :: ys => by
    unfold insertByOrder
    split
    · exact List.Perm.refl _
    · exact ((insertByOrder_perm x ys).cons y).trans (List.Perm.swap x y ys)

theorem sortByOrder_perm : ∀ r : Roster, (sortByOrder r).Perm r
  | [] => List.Perm.refl _
  | x :: xs => by
    unfold sortByOrder
    exact (insertByOrder_perm x (sortByOrder xs)).trans ((sortByOrder_perm xs).cons x)

theorem enumFrom_import {β : Type} (names : β → String) (roles : β → String)
    (atts : β → List (String × Option Int)) (ords : β → Int) :
    ∀ (l : List β) (n : Nat),
      (List.enumFrom n (l.map (fun b =>
        (names b, ({ role := some (roles b), attendance := some (atts b),
                     order := some (ords b) } : PayloadMember))))).map (fun ip =>
        (ip.2.1, ({ role := jsStrOr ip.2.2.role "미정",
                    attendance := ip.2.2.attendance.getD [],
                    order := ip.2.2.order.getD (ip.1 : Int) } : MemberRecord))) =
      l.map (fun b =>
        (names b, ({ role := if roles b = "" then "미정" else roles b,
                     attendance := atts b, order := ords b } : MemberRecord)))
  | [], _ => rfl
  | b :: l, n => by
    simp only [List.map_cons, List.enumFrom_cons]
    rw [enumFrom_import names roles atts ords l (n + 1)]
    rfl

/-- C3 counterexample: exporting a month and importing the export back
into the same month does not reproduce the original attendance maps: a
member with an empty attendance map comes back with an explicit 0 entry
for each of the month's 14 meeting dates, because exportMonthData
rebuilds attendance over exactly the meeting dates with missing entries
defaulted to 0. -/
theorem export_import_changes_attendance :
    (getMonthMembers
      (importMonthData
        [("2025-01", [("a", { role := "포토", attendance := [], order := 0 })])]
        2025 1
        (toMonthPayload (exportMonthData
          [("2025-01", [("a", { role := "포토", attendance := [], order := 0 })])] 2025 1)))
      2025 1).lookup "a" ≠
      some { role := "포토", attendance := [], order := 0 } ∧
    ((getMonthMembers
      (importMonthData
        [("2025-01", [("a", { role := "포토", attendance := [], order := 0 })])]
        2025 1
        (toMonthPayload (exportMonthData
          [("2025-01", [("a", { role := "포토", attendance := [], order := 0 })])] 2025 1)))
      2025 1).lookup "a").map (fun r => r.attendance.length) = some 14 := by
  refine ⟨by decide, by decide⟩

/-- C3 amended: importing a month's own export back into that month
yields the roster sorted stably by order, with every order value kept,
every nonempty role kept (an empty-string role falls back to '미정'),
and each attendance map replaced by its projection onto the month's
meeting dates: one entry per meeting date whose value is the original
stored value, or 0 where the original entry is missing, NaN or 0; in
particular the member names are a permutation of the originals. -/
theorem export_import_roundtrip_spec (st : Store) (y : Int) (m : Nat) :
    getMonthMembers (importMonthData st y m (toMonthPayload (exportMonthData st y m))) y m =
      (sortByOrder (getMonthMembers st y m)).map (fun p =>
        (p.1, { role := if p.2.role = "" then "미정" else p.2.role,
                attendance := (getMonthDates y m).map
                  (fun ds => (ds, some (attOrZero (p.2.attendance.lookup ds)))),
                order := p.2.order })) ∧
    ((getMonthMembers (importMonthData st y m (toMonthPayload (exportMonthData st y m)))
        y m).map Prod.fst).Perm
      ((getMonthMembers st y m).map Prod.fst) := by
  have hmain : getMonthMembers
      (importMonthData st y m (toMonthPayload (exportMonthData st y m))) y m =
      (sortByOrder (getMonthMembers st y m)).map (fun p =>
        (p.1, { role := if p.2.role = "" then "미정" else p.2.role,
                attendance := (getMonthDates y m).map
                  (fun ds => (ds, some (attOrZero (p.2.attendance.lookup ds)))),
                order := p.2.order })) := by
    unfold importMonthData toMonthPayload exportMonthData
    simp only [List.map_map, Function.comp_def]
    unfold getMonthMembers
    rw [lookup_append_of_none _ _ _ (lookup_eraseKey_self st (getMonthKey y m)),
      lookup_cons_eq, Option.getD_some]
    show (List.enumFrom 0 _).map _ = _
    exact enumFrom_import (fun p => p.1) (fun p => p.2.role)
      (fun p => (getMonthDates y m).map
        (fun ds => (ds, some (attOrZero (p.2.attendance.lookup ds)))))
      (fun p => p.2.order) (sortByOrder (getMonthMembers st y m)) 0
  refine ⟨hmain, ?_⟩
  rw [hmain, List.map_map]
  have : ((sortByOrder (getMonthMembers st y m)).map Prod.fst).Perm
      ((getMonthMembers st y m).map Prod.fst) :=
    (sortByOrder_perm (getMonthMembers st y m)).map Prod.fst
  exact this
